import Mathlib

/-!
# Verification of the document question-answering CLI

A shallow embedding, in Lean 4, of the Python sources of the document Q&A
agent (`app.py`, `src/loaders.py`, `src/indexing.py`, `src/retrieval.py`,
`src/utils.py`), together with theorems settling the specification claims.

Strings are embedded as `List Char` (named `PyStr`) so that every operation
is an executable structural recursion: Python `str` indexing, slicing and
`len` are all code-point based, exactly as `List Char` is.

External libraries are embedded at the granularity the claims need:
* the text splitter (`RecursiveCharacterTextSplitter` from
  `langchain_text_splitters`, instantiated by `indexing.py` with
  `separators=["\n\n", "\n", " ", ""]`, `length_function=len`,
  `keep_separator=True` and `strip_whitespace=True` defaults) is embedded
  in full, specialised to that fixed separator list;
* the Chroma vector store is embedded as the list of chunks held by the
  persisted collection; `Chroma.from_documents` opens or creates the
  collection at the persist directory (`get_or_create_collection`) and then
  adds the chunks under freshly generated ids, i.e. it appends;
* file parsers, the embedding API and the chat API are oracles: a file
  carries its parse outcome, a chain invocation carries its result.
-/

set_option autoImplicit false

namespace DocQA

/-- Python strings, embedded as lists of code points. -/
abbrev PyStr := List Char

/-- Shorthand turning a Lean string literal into a `PyStr`. -/
def str (s : String) : PyStr := s.toList

/-- The ASCII whitespace characters stripped by Python `str.strip()`. -/
def isPySpace (c : Char) : Bool :=
  c = ' ' || c = '\t' || c = '\n' || c = '\r' || c = '\x0b' || c = '\x0c'

/-- Python `str.strip()`: drop leading and trailing whitespace. -/
def pyStrip (s : PyStr) : PyStr :=
  ((s.dropWhile isPySpace).reverse.dropWhile isPySpace).reverse

/-- Concatenation of a list of strings: Python `"".join(docs)`. -/
def joinL (l : List PyStr) : PyStr := l.foldr (fun a b => a ++ b) []

/-- Worker for `splitOnL`, structurally recursive on a fuel bound: each
recursive call consumes at least one character of `text`, so any fuel
exceeding `text.length` never runs out. -/
def splitOnFuel (sep : PyStr) : Nat → PyStr → List PyStr
  | 0, text => [text]
  | fuel + 1, text =>
    if sep = [] then [text]
    else
      match text with
      | [] => [[]]
      | c :: rest =>
        if sep.isPrefixOf (c :: rest) then
          [] :: splitOnFuel sep fuel (List.drop sep.length (c :: rest))
        else
          match splitOnFuel sep fuel rest with
          | [] => [[c]]
          | h :: t => (c :: h) :: t

/-- Python `str.split(sep)` for a nonempty literal separator `sep`
(also the behaviour of `re.split` on the escaped separator, pieces only):
leftmost-first, non-overlapping occurrences. `sep = []` returns `[text]`
(the callers below never pass an empty separator). -/
def splitOnL (sep text : PyStr) : List PyStr :=
  splitOnFuel sep (text.length + 1) text

/-- Whether `sep` occurs in `text` (the `re.search` test of `_split_text`
for a literal separator). -/
def occursIn (sep text : PyStr) : Bool := (splitOnL sep text).length ≥ 2

/-!
## The text splitter

`indexing.py` builds
`RecursiveCharacterTextSplitter(chunk_size, chunk_overlap, length_function=len,
separators=["\n\n", "\n", " ", ""])`; the remaining options take their
defaults `keep_separator=True`, `is_separator_regex=False`,
`strip_whitespace=True`, `add_start_index=False`.  The library code embedded
below is `langchain_text_splitters.character._split_text_with_regex`,
`RecursiveCharacterTextSplitter._split_text` and
`TextSplitter._merge_splits` / `_join_docs`, specialised to those options.
-/

/-- `_split_text_with_regex text sep keep_separator=True` for a nonempty
literal separator: split on the separator and reattach each occurrence to
the front of the following piece, dropping empty pieces. -/
def splitKeepSep (sep : PyStr) (text : PyStr) : List PyStr :=
  (match splitOnL sep text with
   | [] => []
   | h :: t => h :: t.map (fun s => sep ++ s)).filter (fun s => s ≠ [])

/-- `_split_text_with_regex` for the empty separator: `list(text)`,
empty pieces dropped (none arise). -/
def charSplits (text : PyStr) : List PyStr :=
  (text.map (fun c => [c])).filter (fun s => s ≠ [])

/-- `_join_docs(docs, "")` with `strip_whitespace=True`: concatenate,
strip, and drop the chunk when the result is empty. -/
def joinDocs (docs : List PyStr) : Option PyStr :=
  let text := pyStrip (joinL docs)
  if text = [] then none else some text

/-- The `while` loop of `_merge_splits` that pops splits off the front of
`current_doc` (here `cur`, with `total` its summed length; `dlen` is the
length of the incoming split; the joined separator is `""`, so its length
contributes nothing). -/
def mergePop (C O dlen : Nat) : List PyStr → Nat → List PyStr × Nat
  | cur, total =>
    if total > O ∨ (total + dlen > C ∧ total > 0) then
      match cur with
      | [] => ([], total)
      | c :: rest => mergePop C O dlen rest (total - c.length)
    else (cur, total)

/-- The `for d in splits` loop of `_merge_splits` (separator `""`):
`docs` is the accumulated output, `cur`/`total` the current window. -/
def mergeLoop (C O : Nat) : List PyStr → List PyStr → Nat → List PyStr → List PyStr
  | docs, cur, total, [] => docs ++ (joinDocs cur).toList
  | docs, cur, total, d :: ds =>
    let dl := d.length
    if total + dl > C then
      if cur ≠ [] then
        let docs' := docs ++ (joinDocs cur).toList
        let p := mergePop C O dl cur total
        mergeLoop C O docs' (p.1 ++ [d]) (p.2 + dl) ds
      else
        mergeLoop C O docs (cur ++ [d]) (total + dl) ds
    else
      mergeLoop C O docs (cur ++ [d]) (total + dl) ds

/-- `TextSplitter._merge_splits(splits, "")`. -/
def mergeSplits (C O : Nat) (splits : List PyStr) : List PyStr :=
  mergeLoop C O [] [] 0 splits

/-- What `_split_text` does with an over-long split: recurse on the
remaining separators when `new_separators` is nonempty (`some f`), else
emit the split as-is. -/
def recApply (recurseOpt : Option (PyStr → List PyStr)) (s : PyStr) : List PyStr :=
  match recurseOpt with
  | none => [s]
  | some f => f s

/-- The `for s in splits` loop at the end of `_split_text`: splits shorter
than the chunk size are collected into `pending` (Python `_good_splits`)
and merged; an over-long split flushes the pending merge and is handled by
`recApply`. -/
def goSplits (C O : Nat) (recurseOpt : Option (PyStr → List PyStr)) :
    List PyStr → List PyStr → List PyStr
  | pending, [] => if pending = [] then [] else mergeSplits C O pending
  | pending, s :: ss =>
    if s.length < C then goSplits C O recurseOpt (pending ++ [s]) ss
    else
      (if pending = [] then [] else mergeSplits C O pending)
        ++ recApply recurseOpt s
        ++ goSplits C O recurseOpt [] ss

/-- `_split_text(text, [""])`: also the behaviour of `_split_text` with any
suffix of the separator list when none of its nonempty separators occurs in
`text` (the selection loop then picks `""`, with empty `new_separators`). -/
def splitTextE (C O : Nat) (text : PyStr) : List PyStr :=
  goSplits C O none [] (charSplits text)

/-- `_split_text(text, [" ", ""])`. -/
def splitTextSp (C O : Nat) (text : PyStr) : List PyStr :=
  if occursIn (str " ") text then
    goSplits C O (some (splitTextE C O)) [] (splitKeepSep (str " ") text)
  else splitTextE C O text

/-- `_split_text(text, ["\n", " ", ""])`. -/
def splitTextNl (C O : Nat) (text : PyStr) : List PyStr :=
  if occursIn (str "\n") text then
    goSplits C O (some (splitTextSp C O)) [] (splitKeepSep (str "\n") text)
  else splitTextSp C O text

/-- `split_text(text)` of the splitter configured by `DocumentIndexer`:
`_split_text(text, ["\n\n", "\n", " ", ""])`. -/
def split_text (C O : Nat) (text : PyStr) : List PyStr :=
  if occursIn (str "\n\n") text then
    goSplits C O (some (splitTextNl C O)) [] (splitKeepSep (str "\n\n") text)
  else splitTextNl C O text

/-!
## Documents and chunking
-/

/-- A LangChain `Document`: page content plus a metadata dict, the dict
embedded as an association list in insertion order. -/
structure Document where
  page_content : PyStr
  metadata : List (PyStr × PyStr)
  deriving DecidableEq, Repr

/-- Python dict read `m.get(k)` as an `Option`: first binding of the key
wins (keys are unique in a real dict). -/
def metaLookup (m : List (PyStr × PyStr)) (k : PyStr) : Option PyStr :=
  match m with
  | [] => none
  | p :: rest => if p.1 = k then some p.2 else metaLookup rest k

/-- Python dict read `m.get(k, default)`. -/
def metaGet (m : List (PyStr × PyStr)) (k dflt : PyStr) : PyStr :=
  match metaLookup m k with
  | some v => v
  | none => dflt

/-- Python dict write `m[k] = v`: replace the first binding of `k`, or
append a new binding. -/
def metaSet (m : List (PyStr × PyStr)) (k v : PyStr) : List (PyStr × PyStr) :=
  match m with
  | [] => [(k, v)]
  | p :: rest => if p.1 = k then (k, v) :: rest else p :: metaSet rest k v

/-- `TextSplitter.split_documents` followed by `create_documents`
(`add_start_index=False`): split each document's text and carry the
document's metadata onto every chunk. -/
def split_documents (C O : Nat) (documents : List Document) : List Document :=
  documents.flatMap (fun d =>
    (split_text C O d.page_content).map
      (fun chunk => { page_content := chunk, metadata := d.metadata }))

/-- `DocumentIndexer.chunk_documents`. -/
def chunk_documents (C O : Nat) (documents : List Document) : List Document :=
  if documents = [] then [] else split_documents C O documents

/-!
## Chunk-length bound of the splitter
-/

/-- Total length of a list of strings. -/
def lensSum (l : List PyStr) : Nat := (l.map List.length).sum

theorem lensSum_nil : lensSum [] = 0 := rfl

theorem lensSum_cons (a : PyStr) (l : List PyStr) :
    lensSum (a :: l) = a.length + lensSum l := by
  simp [lensSum]

theorem lensSum_append (l₁ l₂ : List PyStr) :
    lensSum (l₁ ++ l₂) = lensSum l₁ + lensSum l₂ := by
  simp [lensSum]

theorem length_joinL (l : List PyStr) : (joinL l).length = lensSum l := by
  induction l with
  | nil => rfl
  | cons a l ih => simp [joinL, lensSum_cons] at *; omega

theorem length_pyStrip_le (s : PyStr) : (pyStrip s).length ≤ s.length := by
  unfold pyStrip
  calc ((s.dropWhile isPySpace).reverse.dropWhile isPySpace).reverse.length
      = ((s.dropWhile isPySpace).reverse.dropWhile isPySpace).length := by
        simp
    _ ≤ (s.dropWhile isPySpace).reverse.length :=
        (List.dropWhile_sublist _).length_le
    _ = (s.dropWhile isPySpace).length := by simp
    _ ≤ s.length := (List.dropWhile_sublist _).length_le

theorem joinDocs_mem_length {cur : List PyStr} {x : PyStr}
    (hx : x ∈ (joinDocs cur).toList) : x.length ≤ lensSum cur := by
  unfold joinDocs at hx
  simp only at hx
  split at hx
  · simp at hx
  · simp only [Option.toList_some, List.mem_singleton] at hx
    subst hx
    calc (pyStrip (joinL cur)).length ≤ (joinL cur).length := length_pyStrip_le _
      _ = lensSum cur := length_joinL cur

theorem mergePop_spec (C O dlen : Nat) :
    ∀ cur total, total = lensSum cur →
      (mergePop C O dlen cur total).2 = lensSum (mergePop C O dlen cur total).1 ∧
      ((mergePop C O dlen cur total).2 + dlen ≤ C ∨ (mergePop C O dlen cur total).2 = 0) := by
  intro cur
  induction cur with
  | nil =>
    intro total ht
    rw [lensSum_nil] at ht
    subst ht
    unfold mergePop
    split
    · exact ⟨rfl, Or.inr rfl⟩
    · exact ⟨rfl, Or.inr rfl⟩
  | cons c rest ih =>
    intro total ht
    rw [lensSum_cons] at ht
    unfold mergePop
    split
    · exact ih (total - c.length) (by omega)
    · rename_i hcond
      push_neg at hcond
      refine ⟨ht, ?_⟩
      rcases hcond with ⟨ha, hb⟩
      omega

theorem mergeLoop_bound (C O : Nat) :
    ∀ ds docs cur total,
      (∀ d ∈ ds, d.length ≤ C) → total = lensSum cur → total ≤ C →
      (∀ x ∈ docs, x.length ≤ C) →
      ∀ x ∈ mergeLoop C O docs cur total ds, x.length ≤ C := by
  intro ds
  induction ds with
  | nil =>
    intro docs cur total _ ht hc hd x hx
    unfold mergeLoop at hx
    rcases List.mem_append.mp hx with h | h
    · exact hd x h
    · exact le_trans (joinDocs_mem_length h) (ht ▸ hc)
  | cons d ds ih =>
    intro docs cur total hds ht hc hd x hx
    unfold mergeLoop at hx
    simp only at hx
    split at hx
    · rename_i h1
      split at hx
      · rename_i h2
        have hspec := mergePop_spec C O d.length cur total ht
        refine ih _ _ _ (fun e he => hds e (List.mem_cons_of_mem _ he)) ?_ ?_ ?_ x hx
        · have h := hspec.1
          rw [lensSum_append, lensSum_cons, lensSum_nil]
          omega
        · rcases hspec.2 with h | h
          · exact h
          · have hdl : d.length ≤ C := hds d (List.mem_cons_self _ _)
            omega
        · intro y hy
          rcases List.mem_append.mp hy with h | h
          · exact hd y h
          · exact le_trans (joinDocs_mem_length h) (ht ▸ hc)
      · rename_i h2
        refine ih _ _ _ (fun e he => hds e (List.mem_cons_of_mem _ he)) ?_ ?_ hd x hx
        · rw [lensSum_append, lensSum_cons, lensSum_nil]
          omega
        · have hcur : cur = [] := by
            by_contra hne
            exact h2 hne
          subst hcur
          rw [lensSum_nil] at ht
          have hdl : d.length ≤ C := hds d (List.mem_cons_self _ _)
          omega
    · rename_i h1
      refine ih _ _ _ (fun e he => hds e (List.mem_cons_of_mem _ he)) ?_ ?_ hd x hx
      · rw [lensSum_append, lensSum_cons, lensSum_nil]
        omega
      · omega

theorem mergeSplits_bound (C O : Nat) (splits : List PyStr)
    (h : ∀ d ∈ splits, d.length ≤ C) :
    ∀ x ∈ mergeSplits C O splits, x.length ≤ C :=
  mergeLoop_bound C O splits [] [] 0 h rfl (Nat.zero_le C) (by simp)

theorem goSplits_bound (C O : Nat) (r : Option (PyStr → List PyStr)) :
    ∀ splits pending,
      (∀ s ∈ splits, C ≤ s.length → ∀ x ∈ recApply r s, x.length ≤ C) →
      (∀ p ∈ pending, p.length ≤ C) →
      ∀ x ∈ goSplits C O r pending splits, x.length ≤ C := by
  intro splits
  induction splits with
  | nil =>
    intro pending _ hp x hx
    unfold goSplits at hx
    split at hx
    · simp at hx
    · exact mergeSplits_bound C O pending hp x hx
  | cons s ss ih =>
    intro pending hrec hp x hx
    unfold goSplits at hx
    split at hx
    · rename_i hlt
      refine ih _ (fun e he h => hrec e (List.mem_cons_of_mem _ he) h) ?_ x hx
      intro p hp'
      rcases List.mem_append.mp hp' with h | h
      · exact hp p h
      · rw [List.mem_singleton] at h
        subst h
        omega
    · rename_i hge
      rcases List.mem_append.mp hx with h | h
      · rcases List.mem_append.mp h with h' | h'
        · split at h'
          · simp at h'
          · exact mergeSplits_bound C O pending hp x h'
        · exact hrec s (List.mem_cons_self _ _) (by omega) x h'
      · exact ih _ (fun e he h => hrec e (List.mem_cons_of_mem _ he) h)
          (by intro p hp'; simp at hp') x h

theorem charSplits_mem {text : PyStr} {s : PyStr} (hs : s ∈ charSplits text) :
    s.length = 1 := by
  unfold charSplits at hs
  rcases List.mem_filter.mp hs with ⟨hmem, _⟩
  rcases List.mem_map.mp hmem with ⟨c, _, rfl⟩
  rfl

theorem splitTextE_bound (C O : Nat) (hC : 1 ≤ C) (t : PyStr) :
    ∀ x ∈ splitTextE C O t, x.length ≤ C := by
  refine goSplits_bound C O none (charSplits t) [] ?_ (by simp)
  intro s hs _ x hx
  simp only [recApply, List.mem_singleton] at hx
  subst hx
  rw [charSplits_mem hs]
  exact hC

theorem splitTextSp_bound (C O : Nat) (hC : 1 ≤ C) (t : PyStr) :
    ∀ x ∈ splitTextSp C O t, x.length ≤ C := by
  unfold splitTextSp
  split
  · refine goSplits_bound C O (some (splitTextE C O)) _ [] ?_ (by simp)
    intro s _ _ x hx
    exact splitTextE_bound C O hC s x hx
  · exact splitTextE_bound C O hC t

theorem splitTextNl_bound (C O : Nat) (hC : 1 ≤ C) (t : PyStr) :
    ∀ x ∈ splitTextNl C O t, x.length ≤ C := by
  unfold splitTextNl
  split
  · refine goSplits_bound C O (some (splitTextSp C O)) _ [] ?_ (by simp)
    intro s _ _ x hx
    exact splitTextSp_bound C O hC s x hx
  · exact splitTextSp_bound C O hC t

theorem split_text_bound (C O : Nat) (hC : 1 ≤ C) (t : PyStr) :
    ∀ x ∈ split_text C O t, x.length ≤ C := by
  unfold split_text
  split
  · refine goSplits_bound C O (some (splitTextNl C O)) _ [] ?_ (by simp)
    intro s _ _ x hx
    exact splitTextNl_bound C O hC s x hx
  · exact splitTextNl_bound C O hC t

/-- The number of characters two consecutive chunks share: the largest `n`
such that the last `n` characters of `a` equal the first `n` characters of
`b`. -/
def sharedOverlap (a b : PyStr) : Nat :=
  (List.range (min a.length b.length + 1)).foldl
    (fun acc n => if List.drop (a.length - n) a = List.take n b then n else acc) 0

/-- C2 (counterexample): chunking the 20-character document
`"aaaaaa bbbbbb cccccc"` with chunk size 8 and overlap 3 yields the three
chunks `"aaaaaa"`, `"bbbbbb"`, `"cccccc"`; the first two chunks are a
consecutive pair that is not the last pair, yet they share 0 < 3
overlapping characters, refuting the claimed `≥ O` overlap. -/
theorem C2_counterexample :
    (chunk_documents 8 3 [⟨str "aaaaaa bbbbbb cccccc", []⟩]).map Document.page_content
      = [str "aaaaaa", str "bbbbbb", str "cccccc"] ∧
    sharedOverlap (str "aaaaaa") (str "bbbbbb") < 3 := by
  exact ⟨by decide, by decide⟩

/-- C2 (amended): for every document list, chunking with chunk size `C ≥ 1`
and any overlap `O` produces chunks each of length at most `C`; the claimed
lower bound of `O` shared characters between consecutive chunks does not
hold (see the counterexample). -/
theorem C2_chunk_length_bound (C O : Nat) (documents : List Document)
    (hC : 1 ≤ C) :
    ∀ chunk ∈ chunk_documents C O documents, chunk.page_content.length ≤ C := by
  intro chunk hch
  unfold chunk_documents at hch
  split at hch
  · simp at hch
  · unfold split_documents at hch
    rcases List.mem_flatMap.mp hch with ⟨d, _, hmem⟩
    rcases List.mem_map.mp hmem with ⟨t, ht, rfl⟩
    exact split_text_bound C O hC _ t ht

/-- Witness for `C2_chunk_length_bound` at a concrete input. -/
theorem C2_chunk_length_bound_witness :
    (Document.mk (str "aaaaaa") []).page_content.length ≤ 8 :=
  C2_chunk_length_bound 8 3 [⟨str "aaaaaa bbbbbb cccccc", []⟩] (by decide) ⟨str "aaaaaa", []⟩ (by decide)

/-!
## The document loader (`src/loaders.py`)

A file is embedded as its path together with the outcome the
format-specific parser (`TextLoader`, `PyPDFLoader`,
`UnstructuredWordDocumentLoader`, `UnstructuredImageLoader`,
`UnstructuredMarkdownLoader`, `CSVLoader`) would produce for it: `.ok` with
the parsed documents, or `.error` when `loader.load()` raises.  A folder is
the list of files `Path.rglob("*")` enumerates, in traversal order.
-/

/-- `Path(p).name`: the final path component. -/
def pathName (p : PyStr) : PyStr := (splitOnL (str "/") p).getLastD []

/-- Index of the last occurrence of `c` in `l`, if any. -/
def rfindChar (c : Char) (l : PyStr) : Option Nat :=
  match l.reverse.findIdx? (fun x => x = c) with
  | none => none
  | some j => some (l.length - 1 - j)

/-- `Path(p).suffix` (pathlib): the extension of the final component,
`name[i:]` for `i` the last dot position when `0 < i < len(name) - 1`,
else the empty string. -/
def pathSuffix (p : PyStr) : PyStr :=
  let n := pathName p
  match rfindChar '.' n with
  | some i => if 0 < i ∧ i < n.length - 1 then n.drop i else []
  | none => []

/-- Python `str.lower()` (ASCII, which is all the extension tables use). -/
def lowerL (s : PyStr) : PyStr := s.map Char.toLower

def TEXT_EXTENSIONS : List PyStr := [str ".txt"]

def PDF_EXTENSIONS : List PyStr := [str ".pdf"]

def DOCX_EXTENSIONS : List PyStr := [str ".docx", str ".doc"]

def IMAGE_EXTENSIONS : List PyStr :=
  [str ".jpg", str ".jpeg", str ".png", str ".gif", str ".bmp"]

def MARKDOWN_EXTENSIONS : List PyStr := [str ".md", str ".markdown"]

def CSV_EXTENSIONS : List PyStr := [str ".csv"]

/-- The union of the extension sets, as computed in `load_folder`. -/
def supported_extensions : List PyStr :=
  TEXT_EXTENSIONS ++ PDF_EXTENSIONS ++ DOCX_EXTENSIONS ++ IMAGE_EXTENSIONS
    ++ MARKDOWN_EXTENSIONS ++ CSV_EXTENSIONS

/-- A file on disk, as seen by `DocumentLoader`. -/
structure File where
  path : PyStr
  parse : Except PyStr (List Document)

/-- The metadata tagging of `load_document`: `doc.metadata.update(metadata)`
with `{"source": path, "file_name": name}` followed by
`doc.metadata["file_type"] = extension[1:]`. -/
def tagDocument (f : File) (d : Document) : Document :=
  Document.mk d.page_content
    (metaSet
      (metaSet (metaSet d.metadata (str "source") f.path)
        (str "file_name") (pathName f.path))
      (str "file_type") ((lowerL (pathSuffix f.path)).drop 1))

/-- `DocumentLoader.load_document`: dispatch on the lower-cased extension
(all six supported branches behave alike once the parser is an oracle),
tag every resulting document with `source`, `file_name` and `file_type`
metadata; unsupported extensions and parser exceptions yield `[]`. -/
def load_document (f : File) : List Document :=
  if lowerL (pathSuffix f.path) ∈ supported_extensions then
    match f.parse with
    | .error _ => []
    | .ok docs => docs.map (tagDocument f)
  else []

/-- `DocumentLoader.load_folder`: keep the files whose lower-cased suffix
is a supported extension, load each, concatenate. -/
def load_folder (files : List File) : List Document :=
  (files.filter
    (fun f => lowerL (pathSuffix f.path) ∈ supported_extensions)).flatMap
    load_document

theorem metaLookup_metaSet_self (m : List (PyStr × PyStr)) (k v : PyStr) :
    metaLookup (metaSet m k v) k = some v := by
  induction m with
  | nil => simp [metaSet, metaLookup]
  | cons p rest ih =>
    by_cases h : p.1 = k
    · simp [metaSet, if_pos h, metaLookup]
    · simp only [metaSet, if_neg h, metaLookup]
      exact ih


theorem metaLookup_metaSet_ne (m : List (PyStr × PyStr)) (k k' v : PyStr)
    (h : k' ≠ k) : metaLookup (metaSet m k' v) k = metaLookup m k := by
  induction m with
  | nil => simp [metaSet, metaLookup, h]
  | cons p rest ih =>
    by_cases hp : p.1 = k'
    · simp only [metaSet, if_pos hp, metaLookup]
      rw [if_neg h, if_neg (hp ▸ h)]
    · simp only [metaSet, if_neg hp, metaLookup]
      by_cases hpk : p.1 = k
      · rw [if_pos hpk, if_pos hpk]
      · rw [if_neg hpk, if_neg hpk]
        exact ih

/-- C6: `load_folder` yields chunks attributable only to files with a
supported extension; an unsupported file contributes zero chunks and no
error, a parse failure on a supported file contributes zero chunks, and
removing a failing file from the folder does not change the result
(loading of the remaining files continues). -/
theorem C6_folder_loading :
    (∀ f : File, lowerL (pathSuffix f.path) ∉ supported_extensions →
      load_document f = []) ∧
    (∀ (f : File) (e : PyStr), f.parse = .error e → load_document f = []) ∧
    (∀ (files : List File) (d : Document), d ∈ load_folder files →
      ∃ f, f ∈ files ∧ lowerL (pathSuffix f.path) ∈ supported_extensions ∧
        d ∈ load_document f) ∧
    (∀ (xs ys : List File) (f : File) (e : PyStr), f.parse = .error e →
      load_folder (xs ++ f :: ys) = load_folder (xs ++ ys)) := by
  have hunsupp : ∀ f : File,
      lowerL (pathSuffix f.path) ∉ supported_extensions → load_document f = [] := by
    intro f h
    unfold load_document
    rw [if_neg h]
  have herr : ∀ (f : File) (e : PyStr), f.parse = .error e →
      load_document f = [] := by
    intro f e h
    unfold load_document
    rw [h]
    split <;> rfl
  refine ⟨hunsupp, herr, ?_, ?_⟩
  · intro files d hd
    unfold load_folder at hd
    rcases List.mem_flatMap.mp hd with ⟨f, hf, hdf⟩
    rcases List.mem_filter.mp hf with ⟨hmem, hsupp⟩
    exact ⟨f, hmem, by simpa using hsupp, hdf⟩
  · intro xs ys f e h
    unfold load_folder
    rw [List.filter_append, List.filter_append]
    by_cases hs : lowerL (pathSuffix f.path) ∈ supported_extensions
    · rw [List.filter_cons_of_pos (by simpa using hs)]
      rw [List.flatMap_append, List.flatMap_append, List.flatMap_cons,
        herr f e h]
      simp
    · rw [List.filter_cons_of_neg (by simpa using hs)]

/-- Witness for `C6_folder_loading` is not needed syntactically, but the
statement has hypotheses inside; see `C6_folder_loading_witness`. -/
theorem C6_folder_loading_witness :
    load_document ⟨str "a/x.xyz", .ok [⟨str "hello", []⟩]⟩ = [] ∧
    load_document ⟨str "a/y.txt", .error (str "boom")⟩ = [] ∧
    load_folder [⟨str "a/y.txt", .error (str "boom")⟩] = load_folder [] := by
  refine ⟨?_, ?_, ?_⟩
  · exact C6_folder_loading.1 ⟨str "a/x.xyz", .ok [⟨str "hello", []⟩]⟩ (by decide)
  · exact C6_folder_loading.2.1 ⟨str "a/y.txt", .error (str "boom")⟩ (str "boom") rfl
  · exact C6_folder_loading.2.2.2 [] [] ⟨str "a/y.txt", .error (str "boom")⟩
      (str "boom") rfl

/-- C7: every chunk produced by `load_document` carries the file's path in
its `source` metadata; a well-formed file (supported extension, parser
returns a nonempty document list) produces at least one chunk; and every
chunk returned by `load_folder` carries the path of some file of the
folder. -/
theorem C7_source_metadata :
    (∀ (f : File) (ds : List Document),
      lowerL (pathSuffix f.path) ∈ supported_extensions →
      f.parse = .ok ds →
      (∀ d ∈ load_document f,
        metaLookup d.metadata (str "source") = some f.path) ∧
      (ds ≠ [] → load_document f ≠ [])) ∧
    (∀ (files : List File) (d : Document), d ∈ load_folder files →
      ∃ f, f ∈ files ∧ metaLookup d.metadata (str "source") = some f.path) := by
  have hmain : ∀ (f : File) (ds : List Document),
      lowerL (pathSuffix f.path) ∈ supported_extensions →
      f.parse = .ok ds →
      (∀ d ∈ load_document f,
        metaLookup d.metadata (str "source") = some f.path) ∧
      (ds ≠ [] → load_document f ≠ []) := by
    intro f ds hsupp hparse
    have hld : load_document f = ds.map (tagDocument f) := by
      unfold load_document
      rw [if_pos hsupp, hparse]
    constructor
    · intro d hd
      rw [hld] at hd
      rcases List.mem_map.mp hd with ⟨d₀, _, rfl⟩
      unfold tagDocument
      simp only
      rw [metaLookup_metaSet_ne _ _ _ _ (by decide),
        metaLookup_metaSet_ne _ _ _ _ (by decide),
        metaLookup_metaSet_self]
    · intro hne
      rw [hld]
      simpa using hne
  refine ⟨hmain, ?_⟩
  intro files d hd
  unfold load_folder at hd
  rcases List.mem_flatMap.mp hd with ⟨f, hf, hdf⟩
  rcases List.mem_filter.mp hf with ⟨hmem, hsupp'⟩
  have hsupp : lowerL (pathSuffix f.path) ∈ supported_extensions := by
    simpa using hsupp'
  refine ⟨f, hmem, ?_⟩
  unfold load_document at hdf
  rw [if_pos hsupp] at hdf
  rcases hp : f.parse with e | ds
  · rw [hp] at hdf
    simp at hdf
  · rw [hp] at hdf
    rcases List.mem_map.mp hdf with ⟨d₀, _, rfl⟩
    unfold tagDocument
    simp only
    rw [metaLookup_metaSet_ne _ _ _ _ (by decide),
      metaLookup_metaSet_ne _ _ _ _ (by decide),
      metaLookup_metaSet_self]

/-!
## `src/utils.py`

`load_env_file` takes the `.env` file as `none` (the file does not exist:
the function returns immediately) or `some lines` (the file's lines, as
iterated by `for line in f`), and the process environment `os.environ` as
a dict.
-/

/-- The process environment, a dict from variable names to values. -/
abbrev Env := List (PyStr × PyStr)

/-- Python `line.split("=", 1)` under the caller's guarantee `'=' in line`:
the text before the first `'='` and everything after it (so values may
themselves contain `'='`). -/
def splitFirstEq : PyStr → PyStr × PyStr
  | [] => ([], [])
  | c :: rest =>
    if c = '=' then ([], rest)
    else ((c :: (splitFirstEq rest).1), (splitFirstEq rest).2)

/-- The body of `load_env_file`'s loop for one line: strip it, and when it
is nonempty, does not start with `#`, and contains `=`, split on the first
`=` and assign the stripped key to the stripped value in the environment. -/
def applyEnvLine (env : Env) (line : PyStr) : Env :=
  if pyStrip line ≠ [] ∧ ¬ (str "#").isPrefixOf (pyStrip line)
      ∧ '=' ∈ pyStrip line then
    metaSet env (pyStrip (splitFirstEq (pyStrip line)).1)
      (pyStrip (splitFirstEq (pyStrip line)).2)
  else env

/-- `load_env_file`: return unchanged when the file does not exist, else
fold the lines into the environment. -/
def load_env_file (envFile : Option (List PyStr)) (env : Env) : Env :=
  match envFile with
  | none => env
  | some lines => lines.foldl applyEnvLine env

/-- The binding a qualifying line sets, `none` for lines `load_env_file`
skips: a one-line refactoring of `applyEnvLine` used to state its
cumulative effect. -/
def parseEnvLine (line : PyStr) : Option (PyStr × PyStr) :=
  if pyStrip line ≠ [] ∧ ¬ (str "#").isPrefixOf (pyStrip line)
      ∧ '=' ∈ pyStrip line then
    some (pyStrip (splitFirstEq (pyStrip line)).1,
      pyStrip (splitFirstEq (pyStrip line)).2)
  else none

theorem applyEnvLine_of_parse_none {line : PyStr} (h : parseEnvLine line = none)
    (env : Env) : applyEnvLine env line = env := by
  unfold parseEnvLine at h
  unfold applyEnvLine
  split
  · rename_i hc
    rw [if_pos hc] at h
    exact absurd h (by simp)
  · rfl

theorem applyEnvLine_of_parse_some {line : PyStr} {p : PyStr × PyStr}
    (h : parseEnvLine line = some p) (env : Env) :
    applyEnvLine env line = metaSet env p.1 p.2 := by
  unfold parseEnvLine at h
  unfold applyEnvLine
  split
  · rename_i hc
    rw [if_pos hc] at h
    rcases Option.some.inj h with rfl
    rfl
  · rename_i hc
    rw [if_neg hc] at h
    exact absurd h (by simp)

theorem getLast?_cons_of_some {α : Type} {l : List α} {q : α} (a : α)
    (h : l.getLast? = some q) : (a :: l).getLast? = some q := by
  cases l with
  | nil => simp at h
  | cons x xs => rw [List.getLast?_cons_cons]; exact h

/-- C10: `load_env_file` is total and conservative: with no `.env` file the
environment is returned unchanged; otherwise the value of every variable
`k` afterwards is the (stripped) value of the last line that is nonempty
after stripping, does not start with `#`, contains `=`, and whose part
before its first `=` strips to `k` — or the prior value of `k` when no
such line exists. -/
theorem C10_load_env_file :
    (∀ env : Env, load_env_file none env = env) ∧
    (∀ (lines : List PyStr) (env : Env) (k : PyStr),
      metaLookup (load_env_file (some lines) env) k =
        match ((lines.filterMap parseEnvLine).filter
            (fun p => p.1 = k)).getLast? with
        | some p => some p.2
        | none => metaLookup env k) := by
  refine ⟨fun env => rfl, ?_⟩
  intro lines
  induction lines with
  | nil => intro env k; rfl
  | cons line rest ih =>
    intro env k
    have hstep : load_env_file (some (line :: rest)) env
        = load_env_file (some rest) (applyEnvLine env line) := rfl
    rw [hstep, ih]
    rcases hp : parseEnvLine line with _ | p
    · rw [applyEnvLine_of_parse_none hp]
      rw [List.filterMap_cons_none hp]
    · rw [applyEnvLine_of_parse_some hp]
      rw [List.filterMap_cons_some hp]
      by_cases hk : p.1 = k
      · rw [List.filter_cons_of_pos (by simpa using hk)]
        rcases hlast : ((rest.filterMap parseEnvLine).filter
            (fun q => q.1 = k)).getLast? with _ | q
        · have h0 : ((rest.filterMap parseEnvLine).filter
              (fun q => q.1 = k)) = [] := by
            simpa using hlast
          rw [h0, ← hk, metaLookup_metaSet_self]
          simp
        · rw [getLast?_cons_of_some p hlast, hlast]
      · rw [List.filter_cons_of_neg (by simpa using hk)]
        rcases hlast : ((rest.filterMap parseEnvLine).filter
            (fun q => q.1 = k)).getLast? with _ | q
        · rw [metaLookup_metaSet_ne _ _ _ _ hk]
        · rw [hlast]

/-!
## `src/retrieval.py`

`QARetriever.answer_question` invokes the prebuilt retrieval chain; the
chain's result dict is the oracle `ChainResult`, read by the code with
`result.get("answer", "")` and `result.get("context", [])` (embedded as
`Option`s with those defaults).
-/

/-- The dict returned by `qa_chain.invoke({"input": question})`. -/
structure ChainResult where
  answerField : Option PyStr
  contextField : Option (List Document)

/-- The dict `answer_question` returns. -/
structure QAResult where
  answer : PyStr
  sources : List PyStr
  context : List Document
  deriving DecidableEq

/-- Python `list(set(xs))`: the distinct elements of `xs`, each exactly
once.  A `set`'s iteration order is unspecified; first-occurrence order is
used here, and no theorem below depends on the order. -/
def pySetList (xs : List PyStr) : List PyStr :=
  xs.foldl (fun acc x => if x ∈ acc then acc else acc ++ [x]) []

/-- `QARetriever.answer_question`, given the chain's oracle result. -/
def answer_question (cr : ChainResult) : QAResult :=
  { answer := cr.answerField.getD [],
    sources := pySetList ((cr.contextField.getD []).map
      (fun d => metaGet d.metadata (str "source") (str "Unknown"))),
    context := cr.contextField.getD [] }

theorem pySetList_go (xs : List PyStr) :
    ∀ acc : List PyStr, acc.Nodup →
      (xs.foldl (fun acc x => if x ∈ acc then acc else acc ++ [x]) acc).Nodup ∧
      ∀ y, y ∈ xs.foldl (fun acc x => if x ∈ acc then acc else acc ++ [x]) acc ↔
        (y ∈ acc ∨ y ∈ xs) := by
  induction xs with
  | nil =>
    intro acc h
    exact ⟨h, by simp⟩
  | cons x xs ih =>
    intro acc h
    simp only [List.foldl_cons]
    by_cases hx : x ∈ acc
    · rw [if_pos hx]
      rcases ih acc h with ⟨h1, h2⟩
      refine ⟨h1, fun y => ?_⟩
      rw [h2 y]
      constructor
      · rintro (h' | h')
        · exact Or.inl h'
        · exact Or.inr (List.mem_cons_of_mem _ h')
      · rintro (h' | h')
        · exact Or.inl h'
        · rcases List.mem_cons.mp h' with rfl | h'
          · exact Or.inl hx
          · exact Or.inr h'
    · rw [if_neg hx]
      have hnd : (acc ++ [x]).Nodup := by
        rw [List.nodup_append]
        refine ⟨h, List.nodup_singleton x, ?_⟩
        intro y hy hy'
        rw [List.mem_singleton] at hy'
        subst hy'
        exact hx hy
      rcases ih (acc ++ [x]) hnd with ⟨h1, h2⟩
      refine ⟨h1, fun y => ?_⟩
      rw [h2 y]
      simp only [List.mem_append, List.mem_singleton, List.mem_cons]
      tauto

theorem pySetList_nodup (xs : List PyStr) : (pySetList xs).Nodup :=
  (pySetList_go xs [] List.nodup_nil).1

theorem mem_pySetList (xs : List PyStr) (y : PyStr) :
    y ∈ pySetList xs ↔ y ∈ xs := by
  have h := (pySetList_go xs [] List.nodup_nil).2 y
  simpa [pySetList] using h

/-- C9: `answer_question` returns the chain's text answer, the retrieved
context unchanged, and as sources the deduplicated source paths of the
retrieved chunks (`"Unknown"` standing in for a chunk without a `source`
entry): every path in the mapped list occurs exactly once in `sources`,
and nothing else occurs. -/
theorem C9_answer_question (cr : ChainResult) :
    (answer_question cr).context = cr.contextField.getD [] ∧
    (answer_question cr).answer = cr.answerField.getD [] ∧
    (answer_question cr).sources.Nodup ∧
    ∀ s : PyStr, s ∈ (answer_question cr).sources ↔
      s ∈ ((cr.contextField.getD []).map
        (fun d => metaGet d.metadata (str "source") (str "Unknown"))) := by
  exact ⟨rfl, rfl, pySetList_nodup _, fun s => mem_pySetList _ s⟩

/-- Decimal digit character, `chr(48 + n)` for `n < 10`. -/
def digitChar (n : Nat) : Char := Char.ofNat (48 + n)

/-- Worker for `natStr`, with fuel bounding the number of digits. -/
def natStrGo : Nat → Nat → PyStr
  | 0, _ => []
  | fuel + 1, n =>
    if n < 10 then [digitChar n]
    else natStrGo fuel (n / 10) ++ [digitChar (n % 10)]

/-- Decimal rendering of a natural number, for the f-strings below. -/
def natStr (n : Nat) : PyStr := natStrGo (n + 1) n

/-- Python `enumerate(xs, start)`. -/
def pyEnumerate {α : Type} (start : Nat) : List α → List (Nat × α)
  | [] => []
  | x :: xs => (start, x) :: pyEnumerate (start + 1) xs

/-- Python `"\n".join(output)`. -/
def intercalateL (sep : PyStr) : List PyStr → PyStr
  | [] => []
  | [x] => x
  | x :: y :: rest => x ++ sep ++ intercalateL sep (y :: rest)

/-- The `"=" * 60` banner. -/
def eqBanner : PyStr := List.replicate 60 '='

/-- The `"-" * 60` banner. -/
def dashBanner : PyStr := List.replicate 60 '-'

/-- `QARetriever.format_response`, as the `output` list of lines the code
builds; the function's return value is `"\n".join(output)`, see
`format_response`.  Only the first 3 context chunks are rendered
(`result["context"][:3]`), and a content longer than 300 characters is
truncated to its first 300 characters plus `"..."`. -/
def format_response_lines (result : QAResult) (show_context : Bool) : List PyStr :=
  ([eqBanner, str "ANSWER:", eqBanner, result.answer, []]
    ++ (if result.sources ≠ [] then
          [eqBanner, str "SOURCES:", eqBanner]
            ++ (pyEnumerate 1 result.sources).map
                (fun p => natStr p.1 ++ str ". " ++ p.2)
            ++ [[]]
        else [])
    ++ (if show_context ∧ result.context ≠ [] then
          [eqBanner, str "RETRIEVED CONTEXT:", eqBanner]
            ++ (pyEnumerate 1 (result.context.take 3)).flatMap
                (fun p =>
                  [str "\n[Chunk " ++ natStr p.1 ++ str " from "
                      ++ metaGet p.2.metadata (str "source") (str "Unknown")
                      ++ str "]",
                   dashBanner,
                   if p.2.page_content.length > 300 then
                     p.2.page_content.take 300 ++ str "..."
                   else p.2.page_content])
        else []))

/-- `QARetriever.format_response`: the joined lines. -/
def format_response (result : QAResult) (show_context : Bool) : PyStr :=
  intercalateL (str "\n") (format_response_lines result show_context)

theorem pyEnumerate_mem {α : Type} (d : α) :
    ∀ (l : List α) (s : Nat), d ∈ l → ∃ i, (i, d) ∈ pyEnumerate s l := by
  intro l
  induction l with
  | nil => intro s h; simp at h
  | cons x xs ih =>
    intro s h
    rcases List.mem_cons.mp h with rfl | h
    · exact ⟨s, List.mem_cons_self _ _⟩
    · rcases ih (s + 1) h with ⟨i, hi⟩
      exact ⟨i, List.mem_cons_of_mem _ hi⟩

/-- C3: `format_response` (with context shown) depends only on the first 3
context chunks — so at most 3 are displayed regardless of the retrieval
count `k` — and each displayed chunk appears as an output line truncated to
its first 300 characters plus `"..."` when longer than 300 characters, and
unmodified otherwise. -/
theorem C3_format_response (result : QAResult) :
    format_response_lines result true =
      format_response_lines
        { result with context := result.context.take 3 } true ∧
    ∀ d ∈ result.context.take 3,
      (if d.page_content.length > 300 then
          d.page_content.take 300 ++ str "..."
        else d.page_content) ∈ format_response_lines result true := by
  constructor
  · by_cases hctx : result.context = []
    · simp [format_response_lines, hctx]
    · have h3 : result.context.take 3 ≠ [] := by
        simp [List.take_eq_nil_iff, hctx]
      simp [format_response_lines, hctx, h3, List.take_take]
  · intro d hd
    have hctx : result.context ≠ [] := by
      intro h
      rw [h] at hd
      simp at hd
    unfold format_response_lines
    refine List.mem_append.mpr (Or.inr ?_)
    rw [if_pos ⟨rfl, hctx⟩]
    refine List.mem_append.mpr (Or.inr ?_)
    rcases pyEnumerate_mem d (result.context.take 3) 1 hd with ⟨i, hi⟩
    refine List.mem_flatMap.mpr ⟨(i, d), hi, ?_⟩
    simp

/-- Witness for `C3_format_response` at a concrete result. -/
theorem C3_format_response_witness :
    (if (Document.mk (str "ctx") []).page_content.length > 300 then
        (Document.mk (str "ctx") []).page_content.take 300 ++ str "..."
      else (Document.mk (str "ctx") []).page_content)
      ∈ format_response_lines ⟨str "a", [str "s"], [⟨str "ctx", []⟩]⟩ true :=
  (C3_format_response ⟨str "a", [str "s"], [⟨str "ctx", []⟩]⟩).2
    ⟨str "ctx", []⟩ (by decide)

/-!
## `src/indexing.py` and the persisted vector store

The Chroma collection at the fixed persist directory (`./chroma_db`,
collection name `"documents"`) is embedded as the list of chunks it
holds.  `Chroma.from_documents(documents=chunks, embedding=...,
persist_directory=..., collection_name=...)` constructs a `Chroma` client
for that directory, `get_or_create_collection`s the collection, and adds
the chunks under freshly generated UUID ids — it appends to whatever the
collection already holds and never deletes.  The embedding request for the
batch either succeeds or raises before anything is inserted; the oracle
`embedOk` records which.
-/

/-- `Chroma.from_documents`: append the new chunks to the collection. -/
def chroma_from_documents (collection chunks : List Document) :
    List Document :=
  collection ++ chunks

/-- `DocumentIndexer.index_documents`, acting on the persisted collection:
raises on an empty document list; otherwise chunks the documents and
bulk-inserts them.  An embedding failure raises with the collection
untouched. -/
def index_documents (C O : Nat) (embedOk : Bool)
    (collection documents : List Document) :
    Except PyStr (List Document) :=
  if documents = [] then .error (str "No documents provided for indexing")
  else if embedOk then
    .ok (chroma_from_documents collection (chunk_documents C O documents))
  else .error (str "embedding request failed")

/-!
## `app.py`: setup phase

`main`'s setup sequence, with the external world as oracles: the `.env`
file, the process environment, the folder check (`validate_folder`), the
document-load outcome, the persist directory's existence, the prior
contents of the persisted collection, and the success of each client
construction.  `sys.exit(1)` and an uncaught constructor exception both
end the process with exit code 1.  The result records which API clients
were constructed before the process ended (no network call can have been
attempted on behalf of a client that was never constructed).
-/

structure SetupWorld where
  envFile : Option (List PyStr)
  env : Env
  folderExists : Bool
  loadResult : Except PyStr (List Document)
  persistDirExists : Bool
  priorCollection : List Document
  embedCtorOk : Bool
  embedOk : Bool
  chromaOk : Bool
  llmCtorOk : Bool
  reindexFlag : Bool

/-- Which of the two step-2 branches ran. -/
inductive IndexBranch
  | loadedExisting
  | createdNew
  deriving DecidableEq, Repr

/-- The state handed to the interactive loop when setup succeeds. -/
structure ReadyState where
  collection : List Document
  branch : IndexBranch
  retrieverK : Nat
  deriving DecidableEq, Repr

/-- Outcome of the setup phase: exit code (if the process ended),
which clients had been constructed, and the ready state on success. -/
structure SetupResult where
  exitCode : Option Nat
  constructedIndexer : Bool
  constructedEmbeddings : Bool
  constructedChat : Bool
  ready : Option ReadyState
  deriving DecidableEq, Repr

/-- `not os.getenv("OPENAI_API_KEY")`: unset or set to the empty string. -/
def apiKeyMissing (env : Env) : Bool :=
  match metaLookup env (str "OPENAI_API_KEY") with
  | none => true
  | some v => v.isEmpty

/-- Exit with code 1, recording which clients had been constructed. -/
def exit1 (ci ce cc : Bool) : SetupResult :=
  SetupResult.mk (some 1) ci ce cc none

/-- Step 2's branch: load the existing index when `--reindex` is not set
and the persist directory exists, else index the loaded documents
(appending to the prior collection contents, see `chroma_from_documents`);
`none` when the branch raised. -/
def setupBranch (w : SetupWorld) (cs co : Nat) (documents : List Document) :
    Option (List Document × IndexBranch) :=
  if !w.reindexFlag && w.persistDirExists then
    if w.chromaOk then some (w.priorCollection, IndexBranch.loadedExisting)
    else none
  else
    match index_documents cs co w.embedOk w.priorCollection documents with
    | .ok coll => if w.chromaOk then some (coll, IndexBranch.createdNew) else none
    | .error _ => none

/-- The setup phase of `main` (everything before the interactive loop):
env-file load, API-key check, folder check, document load (exit 1 when
empty), `DocumentIndexer` construction (which constructs the embeddings
client), index-or-load, `QARetriever` construction. -/
def mainSetup (w : SetupWorld) (cs co k : Nat) : SetupResult :=
  if apiKeyMissing (load_env_file w.envFile w.env) then exit1 false false false
  else if !w.folderExists then exit1 false false false
  else
    match w.loadResult with
    | .error _ => exit1 false false false
    | .ok documents =>
      if documents = [] then exit1 false false false
      else if !w.embedCtorOk then exit1 true true false
      else
        match setupBranch w cs co documents with
        | none => exit1 true true false
        | some p =>
          if !w.llmCtorOk then exit1 true true true
          else SetupResult.mk none true true true (some (ReadyState.mk p.1 p.2 k))

/-!
## `app.py`: the interactive loop

One iteration of the `while True` loop.  The `vector_store` handle and the
retriever's internal handle are both views of the same persisted
collection (same persist directory and collection name), so the live state
is the collection's contents plus the identity of the `QARetriever` object
in use: `retrieverGen` increments each time a new retriever is built, and
`retrieverK` is its `k`.  The oracles of one iteration: the folder reload
outcome, the embedding batch outcome, the `QARetriever` constructor
outcome, and whether a question's retrieval/generation succeeded (either
way the loop's `except` leaves the state untouched, so `answerOk` does not
influence the state).
-/

structure LoopState where
  collection : List Document
  retrieverGen : Nat
  retrieverK : Nat
  deriving DecidableEq, Repr

structure LoopWorld where
  loadResult : Except PyStr (List Document)
  embedOk : Bool
  qaCtorOk : Bool
  answerOk : Bool

/-- One line read by the loop. -/
inductive LoopInput
  | quit
  | blank
  | reindex
  | question (q : PyStr)

/-- Outcome of one loop iteration. -/
inductive LoopOutcome
  | exitLoop
  | continueLoop (s : LoopState)
  deriving DecidableEq, Repr

/-- One iteration of the interactive loop.  On `reindex`: reload the
folder (an error or an empty reload is caught/warned and the loop
continues unchanged); then `index_documents` (appending to the live
collection; an error is caught with the collection untouched); then build
a new `QARetriever` — if that construction raises, the inner `except`
catches it and the loop continues with the *old* retriever, but the
collection has already been modified. -/
def loopStep (C O k : Nat) (w : LoopWorld) (s : LoopState) :
    LoopInput → LoopOutcome
  | .quit => .exitLoop
  | .blank => .continueLoop s
  | .question _ => .continueLoop s
  | .reindex =>
    match w.loadResult with
    | .error _ => .continueLoop s
    | .ok documents =>
      if documents = [] then .continueLoop s
      else
        match index_documents C O w.embedOk s.collection documents with
        | .error _ => .continueLoop s
        | .ok newColl =>
          if w.qaCtorOk then
            .continueLoop (LoopState.mk newColl (s.retrieverGen + 1) k)
          else
            .continueLoop (LoopState.mk newColl s.retrieverGen s.retrieverK)

/-- C1 (code-bug evaluation): re-indexing does not replace the collection.
Indexing the single document `"new content"` on top of a collection still
holding the stale chunk `"old chunk"` keeps the stale chunk; indexing the
same document twice duplicates its chunk; and a successful interactive
`reindex` from a collection holding `"old chunk"` leaves the loop's
collection `["old chunk", "new content"]`, not `["new content"]`. -/
theorem C1_reindex_appends :
    index_documents 1000 200 true [Document.mk (str "old chunk") []]
        [Document.mk (str "new content") []]
      = .ok [Document.mk (str "old chunk") [],
          Document.mk (str "new content") []] ∧
    index_documents 1000 200 true [Document.mk (str "new content") []]
        [Document.mk (str "new content") []]
      = .ok [Document.mk (str "new content") [],
          Document.mk (str "new content") []] ∧
    loopStep 1000 200 4
        (LoopWorld.mk (.ok [Document.mk (str "new content") []]) true true true)
        (LoopState.mk [Document.mk (str "old chunk") []] 0 4) .reindex
      = .continueLoop (LoopState.mk
          [Document.mk (str "old chunk") [], Document.mk (str "new content") []]
          1 4) := by
  exact ⟨rfl, rfl, rfl⟩

/-- C5: when `OPENAI_API_KEY` is absent from the environment after the
`.env` file has been read, setup exits with code 1 before constructing the
indexer, the embeddings client or the chat client, so no network call was
attempted. -/
theorem C5_missing_api_key (w : SetupWorld) (cs co k : Nat)
    (h : metaLookup (load_env_file w.envFile w.env) (str "OPENAI_API_KEY")
      = none) :
    mainSetup w cs co k = SetupResult.mk (some 1) false false false none := by
  unfold mainSetup
  have hmiss : apiKeyMissing (load_env_file w.envFile w.env) = true := by
    unfold apiKeyMissing
    rw [h]
  rw [hmiss]
  rfl

/-- Witness for `C5_missing_api_key` at a concrete world. -/
theorem C5_missing_api_key_witness :
    mainSetup (SetupWorld.mk none [] true (.ok [Document.mk (str "x") []])
        false [] true true true true false) 1000 200 4
      = SetupResult.mk (some 1) false false false none :=
  C5_missing_api_key _ 1000 200 4 rfl

theorem setupBranch_spec (w : SetupWorld) (cs co : Nat)
    (documents : List Document) (p : List Document × IndexBranch)
    (h : setupBranch w cs co documents = some p) :
    p.2 = IndexBranch.loadedExisting ↔
      (w.reindexFlag = false ∧ w.persistDirExists = true) := by
  unfold setupBranch at h
  split at h
  · rename_i hcond
    rw [Bool.and_eq_true, Bool.not_eq_true'] at hcond
    split at h
    · rcases Option.some.inj h with rfl
      constructor
      · intro _
        exact hcond
      · intro _
        rfl
    · exact absurd h (by simp)
  · rename_i hcond
    rw [Bool.and_eq_true, Bool.not_eq_true'] at hcond
    push_neg at hcond
    split at h
    · split at h
      · rcases Option.some.inj h with rfl
        constructor
        · intro hbr
          exact absurd hbr (by simp)
        · rintro ⟨h1, h2⟩
          exact absurd (hcond h1) (by simp [h2])
      · exact absurd h (by simp)
    · exact absurd h (by simp)

/-- C8: the setup loads the existing persisted index iff `--reindex` is
not set and the persist directory exists (otherwise it creates a new
index); and document loading runs first in both branches — an empty load
exits with code 1 before any client is constructed or any branch is
taken. -/
theorem C8_index_branch (w : SetupWorld) (cs co k : Nat) :
    (w.loadResult = .ok [] →
      mainSetup w cs co k = SetupResult.mk (some 1) false false false none) ∧
    (∀ st : ReadyState, (mainSetup w cs co k).ready = some st →
      (st.branch = IndexBranch.loadedExisting ↔
        (w.reindexFlag = false ∧ w.persistDirExists = true))) := by
  constructor
  · intro h
    unfold mainSetup
    rw [h]
    split
    · rfl
    · split
      · rfl
      · rfl
  · intro st hst
    unfold mainSetup at hst
    split at hst
    · simp [exit1] at hst
    · split at hst
      · simp [exit1] at hst
      · split at hst
        · simp [exit1] at hst
        · rename_i documents hload
          split at hst
          · simp [exit1] at hst
          · split at hst
            · simp [exit1] at hst
            · rcases hbr : setupBranch w cs co documents with _ | p
              · rw [hbr] at hst
                simp [exit1] at hst
              · rw [hbr] at hst
                by_cases hllm : w.llmCtorOk
                · rw [hllm] at hst
                  have hst' : some (ReadyState.mk p.1 p.2 k) = some st := hst
                  rcases Option.some.inj hst' with rfl
                  exact setupBranch_spec w cs co documents p hbr
                · rw [Bool.not_eq_true] at hllm
                  rw [hllm] at hst
                  have hst' : (none : Option ReadyState) = some st := hst
                  simp at hst'

/-- Witness for `C8_index_branch` at a concrete world. -/
theorem C8_index_branch_witness :
    mainSetup (SetupWorld.mk none [(str "OPENAI_API_KEY", str "sk")] true
        (.ok []) true [] true true true true false) 1000 200 4
      = SetupResult.mk (some 1) false false false none ∧
    ((ReadyState.mk [] IndexBranch.loadedExisting 4).branch
        = IndexBranch.loadedExisting ↔
      ((false : Bool) = false ∧ (true : Bool) = true)) := by
  constructor
  · exact (C8_index_branch (SetupWorld.mk none
      [(str "OPENAI_API_KEY", str "sk")] true (.ok []) true [] true true true
      true false) 1000 200 4).1 rfl
  · exact (C8_index_branch (SetupWorld.mk none
      [(str "OPENAI_API_KEY", str "sk")] true
      (.ok [Document.mk (str "d") []]) true [] true true true true false)
      1000 200 4).2 (ReadyState.mk [] IndexBranch.loadedExisting 4) rfl

/-- C4 (counterexample): a `reindex` that fails at QA-retriever
construction, after indexing succeeded, is caught and the loop continues
with the prior retriever — but the vector-store collection is *not*
unchanged: the stale collection `["old chunk"]` has become
`["old chunk", "new content"]`. -/
theorem C4_counterexample :
    loopStep 1000 200 4
        (LoopWorld.mk (.ok [Document.mk (str "new content") []]) true false true)
        (LoopState.mk [Document.mk (str "old chunk") []] 0 4) .reindex
      = .continueLoop (LoopState.mk
          [Document.mk (str "old chunk") [], Document.mk (str "new content") []]
          0 4) ∧
    [Document.mk (str "old chunk") [], Document.mk (str "new content") []]
      ≠ [Document.mk (str "old chunk") []] := by
  exact ⟨rfl, by decide⟩

/-- C4 (amended): every error inside the interactive loop is caught and
the loop continues with the same QA retriever in use (same object, same
`k`): a failed question leaves the state unchanged; a reindex whose folder
reload raises, reloads empty, or whose indexing raises leaves the state
unchanged; a reindex whose QA-retriever construction raises after
successful indexing keeps the prior retriever but has already appended the
newly indexed chunks to the persisted collection. -/
theorem C4_loop_error_handling (C O k : Nat) (w : LoopWorld) (s : LoopState) :
    (∀ q : PyStr, loopStep C O k w s (.question q) = .continueLoop s) ∧
    (∀ e : PyStr, w.loadResult = .error e →
      loopStep C O k w s .reindex = .continueLoop s) ∧
    (w.loadResult = .ok [] →
      loopStep C O k w s .reindex = .continueLoop s) ∧
    (∀ documents : List Document, w.loadResult = .ok documents →
      documents ≠ [] → w.embedOk = false →
      loopStep C O k w s .reindex = .continueLoop s) ∧
    (∀ documents : List Document, w.loadResult = .ok documents →
      documents ≠ [] → w.embedOk = true → w.qaCtorOk = false →
      loopStep C O k w s .reindex = .continueLoop
        (LoopState.mk (s.collection ++ chunk_documents C O documents)
          s.retrieverGen s.retrieverK)) := by
  refine ⟨fun q => rfl, ?_, ?_, ?_, ?_⟩
  · intro e h
    simp [loopStep, h]
  · intro h
    simp [loopStep, h]
  · intro documents h hne hembed
    simp [loopStep, h, hne, index_documents, hembed]
  · intro documents h hne hembed hqa
    simp [loopStep, h, hne, index_documents, hembed, hqa,
      chroma_from_documents]

/-- Witness for `C4_loop_error_handling` at a concrete world and state. -/
theorem C4_loop_error_handling_witness :
    loopStep 1000 200 4 (LoopWorld.mk (.ok []) true true true)
        (LoopState.mk [Document.mk (str "old chunk") []] 0 4) .reindex
      = .continueLoop (LoopState.mk [Document.mk (str "old chunk") []] 0 4) :=
  (C4_loop_error_handling 1000 200 4 (LoopWorld.mk (.ok []) true true true)
    (LoopState.mk [Document.mk (str "old chunk") []] 0 4)).2.2.1 rfl

/-- Witness for `C7_source_metadata` at a concrete file. -/
theorem C7_source_metadata_witness :
    metaLookup (Document.mk (str "hello")
        [(str "source", str "sample/notes.txt"),
         (str "file_name", str "notes.txt"),
         (str "file_type", str "txt")]).metadata (str "source")
      = some (str "sample/notes.txt") ∧
    load_document ⟨str "sample/notes.txt", .ok [⟨str "hello", []⟩]⟩ ≠ [] := by
  have h := C7_source_metadata.1 ⟨str "sample/notes.txt", .ok [⟨str "hello", []⟩]⟩
    [⟨str "hello", []⟩] (by decide) rfl
  exact ⟨h.1 _ (by decide), h.2 (by decide)⟩

end DocQA


